import Mathlib

/-!
Verification of the result-classification and numeric-formatting core of the
QFT-Plus viewer (`qft_viewer_final.py`): the functions `calculate_comment`
(the result classifier, called `classify` in the specification) and
`format_number_with_decimals` (the numeric display formatter, called
`format_value` in the specification).

The embedding models Python strings as Lean `String`, Python `float` values
produced by `float(...)` on a string as `PyFloat` (an exact scaled decimal
`m * 10 ^ e`, a signed infinity, or NaN; finite decimal strings are kept
exact, so values beyond IEEE double range stay exact instead of overflowing,
and there is no negative zero), and an uncaught Python exception as the
`.error` case of `Except`.
-/

/-- Characters stripped by Python's `str.strip()` (ASCII whitespace). -/
def isPySpace (c : Char) : Bool :=
  c == ' ' || c == '\t' || c == '\n' || c == '\r' || c.toNat == 11 || c.toNat == 12

/-- Model of Python `str.strip()`: remove leading and trailing whitespace. -/
def pyStrip (s : String) : String :=
  ⟨((s.data.dropWhile isPySpace).reverse.dropWhile isPySpace).reverse⟩

/-- Model of Python `str.upper()` (ASCII letters). -/
def pyUpper (s : String) : String :=
  ⟨s.data.map Char.toUpper⟩

/-- Model of `'>' in s or '<' in s`. -/
def hasCmp (s : String) : Bool :=
  s.data.contains '>' || s.data.contains '<'

/-- Model of `s.replace('>', '').replace('<', '')`: removing every occurrence
of a one-character substring is filtering that character out. -/
def removeCmp (s : String) : String :=
  ⟨s.data.filter (fun c => !(c == '>' || c == '<'))⟩

/-- A Python `float` value: an exact finite scaled decimal `m * 10 ^ e`, a
signed infinity (`.inf true` is `+inf`), or NaN. -/
inductive PyFloat where
  | num : ℤ → ℤ → PyFloat
  | inf : Bool → PyFloat
  | nan : PyFloat
deriving DecidableEq

/-- The rational value of the finite float `m * 10 ^ e`. -/
def decVal (m e : ℤ) : ℚ :=
  (m : ℚ) * 10 ^ e

/-- Compare two scaled decimals with `≤` by cross-scaling to integers. -/
def decLE (m1 e1 m2 e2 : ℤ) : Bool :=
  if e1 ≤ e2 then m1 ≤ m2 * 10 ^ (e2 - e1).toNat else m1 * 10 ^ (e1 - e2).toNat ≤ m2

/-- Compare two scaled decimals with `<` by cross-scaling to integers. -/
def decLT (m1 e1 m2 e2 : ℤ) : Bool :=
  if e1 ≤ e2 then m1 < m2 * 10 ^ (e2 - e1).toNat else m1 * 10 ^ (e1 - e2).toNat < m2

/-- Python `<` on floats: NaN is incomparable to everything. -/
def PyFloat.pyLt : PyFloat → PyFloat → Bool
  | .nan, _ => false
  | _, .nan => false
  | .num m1 e1, .num m2 e2 => decLT m1 e1 m2 e2
  | .num _ _, .inf s => s
  | .inf s, .num _ _ => !s
  | .inf s, .inf t => !s && t

/-- Python `<=` on floats: NaN is incomparable to everything. -/
def PyFloat.pyLe : PyFloat → PyFloat → Bool
  | .nan, _ => false
  | _, .nan => false
  | .num m1 e1, .num m2 e2 => decLE m1 e1 m2 e2
  | .num _ _, .inf s => s
  | .inf s, .num _ _ => !s
  | .inf s, .inf t => !s || t

/-- Optional sign at the front of a numeric literal; `true` means negative. -/
def parseSign : List Char → Bool × List Char
  | '+' :: r => (false, r)
  | '-' :: r => (true, r)
  | l => (false, l)

/-- Value of a digit string read in base 10. -/
def digitsToNat (l : List Char) : ℕ :=
  l.foldl (fun n c => 10 * n + (c.toNat - 48)) 0

/-- Mantissa of a float literal: `digits`, `digits.digits`, `digits.` or
`.digits`; returns its exact value as a scaled decimal `m * 10 ^ e` and the
unconsumed rest. -/
def parseMantissa (l : List Char) : Option (ℤ × ℤ × List Char) :=
  let ip := l.takeWhile Char.isDigit
  let r1 := l.dropWhile Char.isDigit
  match r1 with
  | '.' :: r2 =>
      let fp := r2.takeWhile Char.isDigit
      let r3 := r2.dropWhile Char.isDigit
      if ip.isEmpty && fp.isEmpty then none
      else some ((digitsToNat (ip ++ fp) : ℤ), -(fp.length : ℤ), r3)
  | _ => if ip.isEmpty then none else some ((digitsToNat ip : ℤ), 0, r1)

/-- Optional exponent part `e[+|-]digits` of a float literal. -/
def parseExpPart : List Char → Option (ℤ × List Char)
  | [] => some (0, [])
  | c :: r =>
    if c == 'e' || c == 'E' then
      let (neg, r1) := parseSign r
      let ds := r1.takeWhile Char.isDigit
      let r2 := r1.dropWhile Char.isDigit
      if ds.isEmpty then none
      else some ((if neg then -(digitsToNat ds : ℤ) else (digitsToNat ds : ℤ)), r2)
    else some (0, c :: r)

/-- Model of Python's `float(s)` on a string: strip whitespace, optional sign,
then `inf`/`infinity`/`nan` (case-insensitive) or a decimal literal with
optional fraction and exponent; `none` models the `ValueError` raised on any
other input. Finite values are exact scaled decimals. -/
def pyFloat (s : String) : Option PyFloat :=
  let l := (pyStrip s).data
  let (neg, r) := parseSign l
  let low := r.map Char.toLower
  if low = ['i', 'n', 'f'] || low = ['i', 'n', 'f', 'i', 'n', 'i', 't', 'y'] then
    some (.inf (!neg))
  else if low = ['n', 'a', 'n'] then
    some .nan
  else
    match parseMantissa r with
    | none => none
    | some (m, e, r1) =>
      match parseExpPart r1 with
      | none => none
      | some (p, r2) =>
        if r2.isEmpty then some (.num (if neg then -m else m) (e + p))
        else none

/-- Model of Python's `int(s)` on a string: strip whitespace, optional sign,
then a nonempty run of digits; `none` models the `ValueError` otherwise. -/
def pyInt (s : String) : Option ℤ :=
  let l := (pyStrip s).data
  let (neg, r) := parseSign l
  if !r.isEmpty && r.all Char.isDigit then
    some (if neg then -(digitsToNat r : ℤ) else (digitsToNat r : ℤ))
  else none

/-- Whether the finite float `m * 10 ^ e` is a whole number, i.e. whether
Python's `num == int(num)` holds for it. -/
def decIsInt (m e : ℤ) : Bool :=
  if 0 ≤ e then true else m % 10 ^ (-e).toNat == 0

/-- Python's `int(num)` on a whole-valued finite float `m * 10 ^ e` (the
truncation is exact there, so ordinary division suffices). -/
def decToInt (m e : ℤ) : ℤ :=
  if 0 ≤ e then m * 10 ^ e.toNat else m / 10 ^ (-e).toNat

/-- Round a nonnegative scaled decimal `m * 10 ^ e` (`0 ≤ m`) to the nearest
integer, ties to even, as Python's float formatting does. -/
def decRound (m e : ℤ) : ℤ :=
  if 0 ≤ e then m * 10 ^ e.toNat
  else
    let b : ℤ := 10 ^ (-e).toNat
    let q := m.fdiv b
    let r := m.fmod b
    if 2 * r < b then q else if b < 2 * r then q + 1 else if q % 2 = 0 then q else q + 1

/-- Decimal digits of `n` left-padded with zeros to width at least `w`. -/
def padDigits (n : ℕ) (w : ℕ) : List Char :=
  let ds := (toString n).data
  List.replicate (w - ds.length) '0' ++ ds

/-- Fixed-point rendering of a nonnegative scaled decimal with `d` digits
after the point, as Python's `f"{num:.{d}f}"` renders the magnitude. -/
def fixedOfMag (m e : ℤ) (d : ℕ) : String :=
  let n := (decRound (m * 10 ^ d) e).toNat
  if d = 0 then toString n
  else
    let ds := padDigits n (d + 1)
    ⟨ds.take (ds.length - d) ++ '.' :: ds.drop (ds.length - d)⟩

/-- Model of Python's `f"{num:.{d}f}"` for a nonnegative precision `d`. -/
def formatFixed : PyFloat → ℕ → String
  | .nan, _ => "nan"
  | .inf b, _ => if b then "inf" else "-inf"
  | .num m e, d => if m < 0 then "-" ++ fixedOfMag (-m) e d else fixedOfMag m e d

/-- A lab-result record as `calculate_comment` reads it: the five keys it
accesses via `row_dict.get`, each possibly absent. -/
structure RowDict where
  qft_result : Option String
  nil_result : Option String
  tb1_nil : Option String
  tb2_nil : Option String
  mit_nil : Option String

/-- One differential field as the classifier parses it:
`str(value).replace('>', '').replace('<', '').strip()`, then
`float(x) if x else 0.0`; `none` models the `ValueError` on malformed input. -/
def parseVal (raw : String) : Option PyFloat :=
  let s := pyStrip (removeCmp raw)
  if s = "" then some (.num 0 0) else pyFloat s

/-- The result classifier `calculate_comment` (the spec's `classify`):
uppercase `qft_result`, parse the four differentials (a `ValueError` is
caught and turned into the sentinel `"Error"`), then walk the POS/IND
branch structure of the source. -/
def calculate_comment (row : RowDict) : String :=
  let qft_result := pyUpper (row.qft_result.getD "")
  match parseVal (row.nil_result.getD "0"), parseVal (row.tb1_nil.getD "0"),
        parseVal (row.tb2_nil.getD "0"), parseVal (row.mit_nil.getD "0") with
  | some nil_val, some tb1_nil, some tb2_nil, some mit_nil =>
    if qft_result = "POS" ∨ qft_result = "POS*" then
      if PyFloat.pyLe (.num 1 0) tb1_nil || PyFloat.pyLe (.num 1 0) tb2_nil then
        ""
      else
        let is_wp_tb1 := PyFloat.pyLe (.num 35 (-2)) tb1_nil && PyFloat.pyLt tb1_nil (.num 1 0)
        let is_wp_tb2 := PyFloat.pyLe (.num 35 (-2)) tb2_nil && PyFloat.pyLt tb2_nil (.num 1 0)
        if is_wp_tb1 && is_wp_tb2 then "WP (Both)"
        else if is_wp_tb1 then "WP (TB1)"
        else if is_wp_tb2 then "WP (TB2)"
        else ""
    else if qft_result = "IND" then
      if PyFloat.pyLt (.num 8 0) nil_val then "High Nil"
      else if PyFloat.pyLt mit_nil (.num 5 (-1)) then "Low Mit"
      else ""
    else ""
  | _, _, _, _ => "Error"

/-- The numeric display formatter `format_number_with_decimals` (the spec's
`format_value`), for string inputs: strip, pass blanks and comparison strings
through, then format per the decimals setting. `.error` marks the one
uncaught exception: `int(num)` on an infinite value raises `OverflowError`,
which the `except (ValueError, TypeError)` clause does not catch (`int(num)`
on NaN raises `ValueError`, which it does catch). -/
def format_number_with_decimals (value_str : String) (decimals_setting : String) :
    Except String String :=
  let v := pyStrip value_str
  if v = "" ∨ v = " " then .ok " "
  else if hasCmp v then .ok v
  else
    match pyFloat v with
    | none => .ok v
    | some num =>
      if decimals_setting = "default" then
        match num with
        | .num m e => if decIsInt m e then .ok (toString (decToInt m e)) else .ok v
        | .inf _ => .error "OverflowError"
        | .nan => .ok v
      else
        match pyInt decimals_setting with
        | none => .ok v
        | some d => if d < 0 then .ok v else .ok (formatFixed num d.toNat)

/-- The disjunction "some differential field of the record fails to parse". -/
def parseFails (row : RowDict) : Prop :=
  parseVal (row.nil_result.getD "0") = none ∨ parseVal (row.tb1_nil.getD "0") = none ∨
  parseVal (row.tb2_nil.getD "0") = none ∨ parseVal (row.mit_nil.getD "0") = none

/-- Modelled from the claim's parse rule, for refutation only: strip
surrounding whitespace and any leading `>` or `<` characters (interior
occurrences are kept), treat an empty remainder as `0.0`, otherwise parse the
remainder as a decimal number. -/
def specParseVal (raw : String) : Option PyFloat :=
  let s := pyStrip ⟨(pyStrip raw).data.dropWhile (fun c => c == '>' || c == '<')⟩
  if s = "" then some (.num 0 0) else pyFloat s

/-- Each absent field replaced by the literal default that
`row_dict.get(key, default)` supplies for it. -/
def fillDefaults (row : RowDict) : RowDict :=
  ⟨some (row.qft_result.getD ""), some (row.nil_result.getD "0"),
   some (row.tb1_nil.getD "0"), some (row.tb2_nil.getD "0"),
   some (row.mit_nil.getD "0")⟩

/-! ### Bridge lemmas: integer-pair comparisons compute the rational order -/

lemma decVal_shift (m k : ℤ) (hk : 0 ≤ k) (e : ℤ) :
    decVal (m * 10 ^ k.toNat) e = decVal m (e + k) := by
  unfold decVal
  push_cast
  rw [← zpow_natCast (10 : ℚ) k.toNat, Int.toNat_of_nonneg hk, mul_assoc, ← zpow_add₀ (by norm_num : (10 : ℚ) ≠ 0)]
  ring_nf

lemma decVal_le_same (a b e : ℤ) : decVal a e ≤ decVal b e ↔ a ≤ b := by
  unfold decVal
  rw [mul_le_mul_right (zpow_pos (by norm_num : (0 : ℚ) < 10) e)]
  exact Int.cast_le

lemma decVal_lt_same (a b e : ℤ) : decVal a e < decVal b e ↔ a < b := by
  unfold decVal
  rw [mul_lt_mul_right (zpow_pos (by norm_num : (0 : ℚ) < 10) e)]
  exact Int.cast_lt

lemma decLE_correct (m1 e1 m2 e2 : ℤ) :
    decLE m1 e1 m2 e2 = true ↔ decVal m1 e1 ≤ decVal m2 e2 := by
  unfold decLE
  by_cases h : e1 ≤ e2
  · rw [if_pos h, decide_eq_true_eq]
    rw [show decVal m2 e2 = decVal (m2 * 10 ^ (e2 - e1).toNat) e1 by
      rw [decVal_shift m2 (e2 - e1) (sub_nonneg.2 h) e1]; ring_nf]
    exact (decVal_le_same _ _ _).symm
  · rw [if_neg h, decide_eq_true_eq]
    rw [show decVal m1 e1 = decVal (m1 * 10 ^ (e1 - e2).toNat) e2 by
      rw [decVal_shift m1 (e1 - e2) (sub_nonneg.2 (le_of_not_le h)) e2]; ring_nf]
    exact (decVal_le_same _ _ _).symm

lemma decLT_correct (m1 e1 m2 e2 : ℤ) :
    decLT m1 e1 m2 e2 = true ↔ decVal m1 e1 < decVal m2 e2 := by
  unfold decLT
  by_cases h : e1 ≤ e2
  · rw [if_pos h, decide_eq_true_eq]
    rw [show decVal m2 e2 = decVal (m2 * 10 ^ (e2 - e1).toNat) e1 by
      rw [decVal_shift m2 (e2 - e1) (sub_nonneg.2 h) e1]; ring_nf]
    exact (decVal_lt_same _ _ _).symm
  · rw [if_neg h, decide_eq_true_eq]
    rw [show decVal m1 e1 = decVal (m1 * 10 ^ (e1 - e2).toNat) e2 by
      rw [decVal_shift m1 (e1 - e2) (sub_nonneg.2 (le_of_not_le h)) e2]; ring_nf]
    exact (decVal_lt_same _ _ _).symm

lemma pyLe_num_iff (m1 e1 m2 e2 : ℤ) :
    PyFloat.pyLe (.num m1 e1) (.num m2 e2) = true ↔ decVal m1 e1 ≤ decVal m2 e2 :=
  decLE_correct m1 e1 m2 e2

lemma pyLt_num_iff (m1 e1 m2 e2 : ℤ) :
    PyFloat.pyLt (.num m1 e1) (.num m2 e2) = true ↔ decVal m1 e1 < decVal m2 e2 :=
  decLT_correct m1 e1 m2 e2

lemma decVal_one : decVal 1 0 = 1 := by norm_num [decVal]

lemma decVal_eight : decVal 8 0 = 8 := by norm_num [decVal]

lemma decVal_p35 : decVal 35 (-2) = 35 / 100 := by
  norm_num [decVal]

lemma decVal_half : decVal 5 (-1) = 1 / 2 := by
  norm_num [decVal]

lemma decVal_zero : decVal 0 0 = 0 := by norm_num [decVal]

/-! ### Whole-number finite floats -/

lemma decIsInt_iff (m e : ℤ) : decIsInt m e = true ↔ ∃ k : ℤ, decVal m e = (k : ℚ) := by
  unfold decIsInt
  by_cases h : 0 ≤ e
  · simp only [if_pos h, true_iff]
    refine ⟨m * 10 ^ e.toNat, ?_⟩
    have := decVal_shift m e h 0
    rw [zero_add] at this
    rw [← this]
    unfold decVal
    push_cast
    norm_num
  · simp only [if_neg h, beq_iff_eq]
    have hb : (0 : ℤ) < 10 ^ (-e).toNat := pow_pos (by norm_num) _
    constructor
    · intro hz
      obtain ⟨k, hk⟩ := Int.dvd_of_emod_eq_zero hz
      refine ⟨k, ?_⟩
      have he : e = -((-e).toNat : ℤ) := by
        rw [Int.toNat_of_nonneg (by omega : (0 : ℤ) ≤ -e)]; ring
      unfold decVal
      rw [hk, he, zpow_neg, zpow_natCast]
      push_cast
      field_simp
      rw [show -e ⊔ 0 = -e by omega]
      ring
    · rintro ⟨k, hk⟩
      have he : e = -((-e).toNat : ℤ) := by
        rw [Int.toNat_of_nonneg (by omega : (0 : ℤ) ≤ -e)]; ring
      unfold decVal at hk
      rw [he, zpow_neg, zpow_natCast] at hk
      have hm : (m : ℚ) = k * (10 : ℚ) ^ (-e).toNat := by
        field_simp at hk
        linarith [hk]
      have : m = k * 10 ^ (-e).toNat := by
        have := hm
        push_cast at this
        exact_mod_cast this
      rw [this]
      exact Int.mul_emod_left _ _

lemma decToInt_val (m e : ℤ) (h : decIsInt m e = true) :
    decVal m e = ((decToInt m e : ℤ) : ℚ) := by
  unfold decIsInt at h
  unfold decToInt
  by_cases he : 0 ≤ e
  · rw [if_pos he]
    have := decVal_shift m e he 0
    rw [zero_add] at this
    rw [← this]
    unfold decVal
    push_cast
    norm_num
  · rw [if_neg he]
    rw [if_neg he] at h
    have hz : m % 10 ^ (-e).toNat = 0 := by simpa using h
    obtain ⟨k, hk⟩ := Int.dvd_of_emod_eq_zero hz
    have hb : (10 : ℤ) ^ (-e).toNat ≠ 0 := by positivity
    have hdiv : m / 10 ^ (-e).toNat = k := by
      rw [hk, Int.mul_ediv_cancel_left _ hb]
    rw [hdiv]
    have hee : e = -((-e).toNat : ℤ) := by
      rw [Int.toNat_of_nonneg (by omega : (0 : ℤ) ≤ -e)]; ring
    unfold decVal
    rw [hk, hee, zpow_neg, zpow_natCast]
    push_cast
    field_simp
    rw [show -e ⊔ 0 = -e by omega]
    ring

/-! ### List and string stripping lemmas -/

lemma dropWhile_eq_nil_of_all {p : Char → Bool} {l : List Char} (h : l.all p = true) :
    l.dropWhile p = [] := by
  induction l with
  | nil => rfl
  | cons a t ih =>
    simp only [List.all_cons, Bool.and_eq_true] at h
    simp [List.dropWhile, h.1, ih h.2]

lemma mem_dropWhile_of_mem {p : Char → Bool} {c : Char} {l : List Char}
    (hc : c ∈ l) (hpc : p c = false) : c ∈ l.dropWhile p := by
  induction l with
  | nil => cases hc
  | cons a t ih =>
    by_cases ha : p a
    · rw [List.dropWhile_cons_of_pos ha]
      rcases List.mem_cons.1 hc with rfl | h
      · rw [ha] at hpc; cases hpc
      · exact ih h
    · rw [List.dropWhile_cons_of_neg ha]
      exact hc

lemma dropWhile_head_not {p : Char → Bool} {l : List Char} {x : Char} {xs : List Char}
    (h : l.dropWhile p = x :: xs) : p x = false := by
  induction l with
  | nil => cases h
  | cons a t ih =>
    by_cases ha : p a
    · rw [List.dropWhile_cons_of_pos ha] at h
      exact ih h
    · rw [List.dropWhile_cons_of_neg ha] at h
      cases h
      simpa using ha

lemma pyStrip_of_all_space {s : String} (h : s.data.all isPySpace = true) :
    pyStrip s = "" := by
  unfold pyStrip
  rw [dropWhile_eq_nil_of_all h]
  rfl

lemma mem_pyStrip {s : String} {c : Char} (hc : c ∈ s.data) (hns : isPySpace c = false) :
    c ∈ (pyStrip s).data := by
  unfold pyStrip
  show c ∈ List.reverse _
  rw [List.mem_reverse]
  apply mem_dropWhile_of_mem _ hns
  rw [List.mem_reverse]
  exact mem_dropWhile_of_mem hc hns

lemma pyStrip_ne_single_space (s : String) : pyStrip s ≠ " " := by
  intro h
  unfold pyStrip at h
  have hdata : ((s.data.dropWhile isPySpace).reverse.dropWhile isPySpace).reverse = [' '] := by
    have := congrArg String.data h
    simpa using this
  have h2 : (s.data.dropWhile isPySpace).reverse.dropWhile isPySpace = [' '] := by
    have := congrArg List.reverse hdata
    simpa using this
  have := dropWhile_head_not h2
  simp [isPySpace] at this

instance {α β : Type} [DecidableEq α] [DecidableEq β] : DecidableEq (Except α β) := fun a b =>
  match a, b with
  | .ok x, .ok y =>
    if h : x = y then isTrue (by rw [h]) else isFalse (fun hc => h (Except.ok.inj hc))
  | .error x, .error y =>
    if h : x = y then isTrue (by rw [h]) else isFalse (fun hc => h (Except.error.inj hc))
  | .ok _, .error _ => isFalse (fun hc => Except.noConfusion hc)
  | .error _, .ok _ => isFalse (fun hc => Except.noConfusion hc)

/-- C3: for a record whose uppercased `qft_result` is `POS` or `POS*` and whose
four numeric fields parse (to finite decimal values), the classifier returns
`""` when `tb1_nil >= 1.0` or `tb2_nil >= 1.0` (strong positive), and otherwise
returns `"WP (Both)"`, `"WP (TB1)"`, `"WP (TB2)"` or `""` according to which of
the weak-positive window conditions `0.35 <= value < 1.0` hold. -/
theorem c3_pos_weak_positive (row : RowDict) (mn en m1 e1 m2 e2 mm em : ℤ)
    (hq : pyUpper (row.qft_result.getD "") = "POS" ∨ pyUpper (row.qft_result.getD "") = "POS*")
    (hn : parseVal (row.nil_result.getD "0") = some (.num mn en))
    (h1 : parseVal (row.tb1_nil.getD "0") = some (.num m1 e1))
    (h2 : parseVal (row.tb2_nil.getD "0") = some (.num m2 e2))
    (hm : parseVal (row.mit_nil.getD "0") = some (.num mm em)) :
    ((1 ≤ decVal m1 e1 ∨ 1 ≤ decVal m2 e2) → calculate_comment row = "") ∧
    (decVal m1 e1 < 1 → decVal m2 e2 < 1 →
      ((35 / 100 ≤ decVal m1 e1 ∧ 35 / 100 ≤ decVal m2 e2 →
          calculate_comment row = "WP (Both)") ∧
       (35 / 100 ≤ decVal m1 e1 ∧ ¬ 35 / 100 ≤ decVal m2 e2 →
          calculate_comment row = "WP (TB1)") ∧
       (¬ 35 / 100 ≤ decVal m1 e1 ∧ 35 / 100 ≤ decVal m2 e2 →
          calculate_comment row = "WP (TB2)") ∧
       (¬ 35 / 100 ≤ decVal m1 e1 ∧ ¬ 35 / 100 ≤ decVal m2 e2 →
          calculate_comment row = ""))) := by
  have hb1 : PyFloat.pyLe (.num 1 0) (.num m1 e1) = decide (1 ≤ decVal m1 e1) := by
    rw [Bool.eq_iff_iff, decide_eq_true_eq, pyLe_num_iff, decVal_one]
  have hb2 : PyFloat.pyLe (.num 1 0) (.num m2 e2) = decide (1 ≤ decVal m2 e2) := by
    rw [Bool.eq_iff_iff, decide_eq_true_eq, pyLe_num_iff, decVal_one]
  have hw1a : PyFloat.pyLe (.num 35 (-2)) (.num m1 e1) = decide (35 / 100 ≤ decVal m1 e1) := by
    rw [Bool.eq_iff_iff, decide_eq_true_eq, pyLe_num_iff, decVal_p35]
  have hw1b : PyFloat.pyLt (.num m1 e1) (.num 1 0) = decide (decVal m1 e1 < 1) := by
    rw [Bool.eq_iff_iff, decide_eq_true_eq, pyLt_num_iff, decVal_one]
  have hw2a : PyFloat.pyLe (.num 35 (-2)) (.num m2 e2) = decide (35 / 100 ≤ decVal m2 e2) := by
    rw [Bool.eq_iff_iff, decide_eq_true_eq, pyLe_num_iff, decVal_p35]
  have hw2b : PyFloat.pyLt (.num m2 e2) (.num 1 0) = decide (decVal m2 e2 < 1) := by
    rw [Bool.eq_iff_iff, decide_eq_true_eq, pyLt_num_iff, decVal_one]
  simp only [calculate_comment, hn, h1, h2, hm]
  rw [if_pos hq, hb1, hb2, hw1a, hw1b, hw2a, hw2b]
  constructor
  · rintro (h | h) <;> simp [h]
  · intro hlt1 hlt2
    have hn1 : ¬ (1 : ℚ) ≤ decVal m1 e1 := not_le.mpr hlt1
    have hn2 : ¬ (1 : ℚ) ≤ decVal m2 e2 := not_le.mpr hlt2
    refine ⟨?_, ?_, ?_, ?_⟩ <;> rintro ⟨ha, hb⟩ <;> simp [hn1, hn2, hlt1, hlt2, ha, hb]

/-- C3 (witness): the spec's end-to-end scenario, a `POS` record with
`tb1_nil = "0.5"` and `tb2_nil = "0.2"` is annotated `"WP (TB1)"`. -/
theorem c3_pos_weak_positive_witness :
    calculate_comment ⟨some "POS", none, some "0.5", some "0.2", none⟩ = "WP (TB1)" := by
  have h := c3_pos_weak_positive ⟨some "POS", none, some "0.5", some "0.2", none⟩
    0 0 5 (-1) 2 (-1) 0 0 (by decide) (by decide) (by decide) (by decide) (by decide)
  refine (h.2 ?_ ?_).2.1 ⟨?_, ?_⟩ <;> norm_num [decVal]

/-- C4: for a record whose uppercased `qft_result` is `IND` and whose four
numeric fields parse (to finite decimal values), the classifier returns
`"High Nil"` whenever the parsed `nil_result` exceeds `8.0`, regardless of
`mit_nil`; returns `"Low Mit"` when the nil value is not high and the parsed
`mit_nil` is below `0.5`; and returns `""` otherwise. -/
theorem c4_ind_reasons (row : RowDict) (mn en m1 e1 m2 e2 mm em : ℤ)
    (hq : pyUpper (row.qft_result.getD "") = "IND")
    (hn : parseVal (row.nil_result.getD "0") = some (.num mn en))
    (h1 : parseVal (row.tb1_nil.getD "0") = some (.num m1 e1))
    (h2 : parseVal (row.tb2_nil.getD "0") = some (.num m2 e2))
    (hm : parseVal (row.mit_nil.getD "0") = some (.num mm em)) :
    (8 < decVal mn en → calculate_comment row = "High Nil") ∧
    (decVal mn en ≤ 8 → decVal mm em < 1 / 2 → calculate_comment row = "Low Mit") ∧
    (decVal mn en ≤ 8 → ¬ decVal mm em < 1 / 2 → calculate_comment row = "") := by
  have hbn : PyFloat.pyLt (.num 8 0) (.num mn en) = decide (8 < decVal mn en) := by
    rw [Bool.eq_iff_iff, decide_eq_true_eq, pyLt_num_iff, decVal_eight]
  have hbm : PyFloat.pyLt (.num mm em) (.num 5 (-1)) = decide (decVal mm em < 1 / 2) := by
    rw [Bool.eq_iff_iff, decide_eq_true_eq, pyLt_num_iff, decVal_half]
  have hnq : ¬ (pyUpper (row.qft_result.getD "") = "POS" ∨
      pyUpper (row.qft_result.getD "") = "POS*") := by
    rw [hq]; decide
  simp only [calculate_comment, hn, h1, h2, hm]
  rw [if_neg hnq, if_pos hq, hbn, hbm]
  refine ⟨fun h => by simp [h], fun h h' => ?_, fun h h' => ?_⟩
  · have h2 : decVal mm em < 2⁻¹ := by rw [← one_div]; exact h'
    simp [not_lt.mpr h, h2]
  · have h2 : ¬ decVal mm em < 2⁻¹ := by rw [← one_div]; exact h'
    simp [not_lt.mpr h, h2]

/-- C4 (witness): the spec's end-to-end scenario, an `IND` record with
`nil_result = "9.0"` and `mit_nil = "0.1"` is annotated `"High Nil"`
even though its mitogen value is below `0.5`. -/
theorem c4_ind_reasons_witness :
    calculate_comment ⟨some "IND", some "9.0", none, none, some "0.1"⟩ = "High Nil" := by
  have h := c4_ind_reasons ⟨some "IND", some "9.0", none, none, some "0.1"⟩
    90 (-1) 0 0 0 0 1 (-1) (by decide) (by decide) (by decide) (by decide) (by decide)
  refine h.1 ?_
  norm_num [decVal]

/-- C8 (amended): for a record whose uppercased `qft_result` is none of
`POS`, `POS*`, `IND` — including `NEG` and any unrecognized value — and whose
numeric fields parse, the classifier returns `""`. -/
theorem c8_unrecognized_category (row : RowDict) (f1 f2 f3 f4 : PyFloat)
    (hn : parseVal (row.nil_result.getD "0") = some f1)
    (h1 : parseVal (row.tb1_nil.getD "0") = some f2)
    (h2 : parseVal (row.tb2_nil.getD "0") = some f3)
    (hm : parseVal (row.mit_nil.getD "0") = some f4)
    (hq1 : pyUpper (row.qft_result.getD "") ≠ "POS")
    (hq2 : pyUpper (row.qft_result.getD "") ≠ "POS*")
    (hq3 : pyUpper (row.qft_result.getD "") ≠ "IND") :
    calculate_comment row = "" := by
  have hnq : ¬ (pyUpper (row.qft_result.getD "") = "POS" ∨
      pyUpper (row.qft_result.getD "") = "POS*") := by
    rintro (h | h)
    · exact hq1 h
    · exact hq2 h
  simp only [calculate_comment, hn, h1, h2, hm]
  rw [if_neg hnq, if_neg hq3]

/-- C8 (witness): a `NEG` record with all numeric fields absent (each then
defaults to `"0"`, which parses) gets no annotation. -/
theorem c8_unrecognized_category_witness :
    calculate_comment ⟨some "NEG", none, none, none, none⟩ = "" :=
  c8_unrecognized_category ⟨some "NEG", none, none, none, none⟩
    (.num 0 0) (.num 0 0) (.num 0 0) (.num 0 0)
    (by decide) (by decide) (by decide) (by decide) (by decide) (by decide) (by decide)

/-- C8 (counterexample): the claim as stated quantifies over every record with
an unrecognized category, but a `NEG` record whose `nil_result` is the
non-numeric string `"abc"` is classified `"Error"`, not `""`: the numeric
fields are parsed before the category is inspected. -/
theorem c8_cex :
    calculate_comment ⟨some "NEG", some "abc", none, none, none⟩ = "Error" ∧
    ("Error" : String) ≠ "" := by
  exact ⟨by decide, by decide⟩

/-- C2 (amended): the classifier parses each differential by removing every
occurrence of `>` and `<` and stripping surrounding whitespace, treating an
empty remainder as `0.0` and otherwise parsing it as a decimal number
(`parseVal`), and it returns exactly `"Error"` precisely when one of the four
fields fails to parse. -/
theorem c2_error_iff_parse_failure (row : RowDict) :
    calculate_comment row = "Error" ↔ parseFails row := by
  unfold calculate_comment parseFails
  cases hn : parseVal (row.nil_result.getD "0") with
  | none => simp
  | some f1 =>
    cases h1 : parseVal (row.tb1_nil.getD "0") with
    | none => simp
    | some f2 =>
      cases h2 : parseVal (row.tb2_nil.getD "0") with
      | none => simp
      | some f3 =>
        cases hm : parseVal (row.mit_nil.getD "0") with
        | none => simp
        | some f4 =>
          simp only [Option.some.injEq, reduceCtorEq, or_self, iff_false]
          split_ifs <;> decide

/-- C2 (witness): a record whose `tb1_nil` is `"abc"` (which fails to parse)
is classified exactly `"Error"`. -/
theorem c2_error_iff_parse_failure_witness :
    calculate_comment ⟨some "POS", none, some "abc", none, none⟩ = "Error" :=
  (c2_error_iff_parse_failure ⟨some "POS", none, some "abc", none, none⟩).mpr
    (Or.inr (Or.inl (by decide)))

/-- C2 (counterexample): the claim says stripping only the leading `>`/`<`;
on `tb1_nil = "1<0"` that rule fails to parse (so the claim demands
`"Error"`), yet the code removes the interior `<` as well, parses `10`, and
classifies the record `""` as a strong positive. -/
theorem c2_cex :
    specParseVal "1<0" = none ∧
    calculate_comment ⟨some "POS", none, some "1<0", none, none⟩ = "" ∧
    ("" : String) ≠ "Error" := by
  exact ⟨by decide, by decide, by decide⟩

/-- C1 (amended): the classifier is total — it always returns one of the seven
annotation strings, never an exception. An absent field behaves exactly like
the default string `"0"` (numeric `0.0`), and a field that is empty after
removing `>`/`<` and whitespace parses as `0.0`; but a field whose remainder
is non-numeric does not degrade to `0.0`: it makes the whole record's comment
the sentinel `"Error"` (shown here for `nil_result`). -/
theorem c1_graceful_degradation :
    (∀ row : RowDict, calculate_comment row = calculate_comment (fillDefaults row)) ∧
    (∀ s : String, pyStrip (removeCmp s) = "" → parseVal s = some (.num 0 0)) ∧
    (parseVal "0" = some (.num 0 0)) ∧
    (∀ row : RowDict,
      calculate_comment row ∈
        ["", "WP (Both)", "WP (TB1)", "WP (TB2)", "High Nil", "Low Mit", "Error"]) ∧
    (∀ row : RowDict, ∀ s : String, parseVal s = none →
      calculate_comment { row with nil_result := some s } = "Error") := by
  refine ⟨?_, ?_, by decide, ?_, ?_⟩
  · rintro ⟨q, a, b, c, d⟩
    cases q <;> cases a <;> cases b <;> cases c <;> cases d <;> rfl
  · intro s h
    unfold parseVal
    rw [h]
    rfl
  · intro row
    unfold calculate_comment
    cases hn : parseVal (row.nil_result.getD "0") with
    | none => simp
    | some f1 =>
      cases h1 : parseVal (row.tb1_nil.getD "0") with
      | none => simp
      | some f2 =>
        cases h2 : parseVal (row.tb2_nil.getD "0") with
        | none => simp
        | some f3 =>
          cases hm : parseVal (row.mit_nil.getD "0") with
          | none => simp
          | some f4 =>
            dsimp only
            split_ifs <;> decide
  · intro row s h
    unfold calculate_comment
    simp only [Option.getD_some, h]

/-- C1 (amended, witness): the absent fields of a bare `NEG` record behave as
`"0"`, a comparison-only field parses as `0.0`, and a malformed `nil_result`
gives the `"Error"` sentinel. -/
theorem c1_graceful_degradation_witness :
    calculate_comment ⟨some "NEG", none, none, none, none⟩ =
      calculate_comment ⟨some "NEG", some "0", some "0", some "0", some "0"⟩ ∧
    parseVal " < " = some (.num 0 0) ∧
    calculate_comment ⟨some "IND", some "abc", none, none, some "0.1"⟩ = "Error" := by
  refine ⟨?_, ?_, ?_⟩
  · exact c1_graceful_degradation.1 ⟨some "NEG", none, none, none, none⟩
  · exact c1_graceful_degradation.2.1 " < " (by decide)
  · exact c1_graceful_degradation.2.2.2.2 ⟨some "IND", none, none, none, some "0.1"⟩ "abc" (by decide)

/-- C1 (counterexample): malformed numeric content does not degrade to `0.0`:
an `IND` record with `nil_result = "abc"` is classified `"Error"`, while the
same record with that field read as `0.0` would be `"Low Mit"` — the malformed
field halts the rest of the record's classification. -/
theorem c1_cex :
    calculate_comment ⟨some "IND", some "abc", none, none, none⟩ = "Error" ∧
    calculate_comment ⟨some "IND", some "0", none, none, none⟩ = "Low Mit" ∧
    ("Error" : String) ≠ "Low Mit" := by
  exact ⟨by decide, by decide, by decide⟩

/-! ### Branch lemmas for the formatter -/

lemma hasCmp_iff (s : String) : hasCmp s = true ↔ '>' ∈ s.data ∨ '<' ∈ s.data := by
  simp [hasCmp]

lemma pyStrip_ne_empty_of_mem {s : String} {c : Char}
    (hc : c ∈ s.data) (hns : isPySpace c = false) : pyStrip s ≠ "" := by
  intro h
  have hmem := mem_pyStrip hc hns
  rw [h] at hmem
  simp at hmem

lemma hasCmp_strip {s : String} (h : hasCmp s = true) :
    hasCmp (pyStrip s) = true ∧ pyStrip s ≠ "" := by
  rcases (hasCmp_iff s).1 h with hm | hm
  · exact ⟨(hasCmp_iff _).2 (Or.inl (mem_pyStrip hm (by decide))),
      pyStrip_ne_empty_of_mem hm (by decide)⟩
  · exact ⟨(hasCmp_iff _).2 (Or.inr (mem_pyStrip hm (by decide))),
      pyStrip_ne_empty_of_mem hm (by decide)⟩

lemma pyFloat_empty : pyFloat "" = none := by decide

lemma format_nonblank (s d : String) (hne : pyStrip s ≠ "") :
    format_number_with_decimals s d =
      (if hasCmp (pyStrip s) then Except.ok (pyStrip s)
       else
        match pyFloat (pyStrip s) with
        | none => .ok (pyStrip s)
        | some num =>
          if d = "default" then
            match num with
            | .num m e => if decIsInt m e then .ok (toString (decToInt m e)) else .ok (pyStrip s)
            | .inf _ => .error "OverflowError"
            | .nan => .ok (pyStrip s)
          else
            match pyInt d with
            | none => .ok (pyStrip s)
            | some k => if k < 0 then .ok (pyStrip s) else .ok (formatFixed num k.toNat)) := by
  have hcond : ¬ (pyStrip s = "" ∨ pyStrip s = " ") := by
    rintro (h | h)
    · exact hne h
    · exact pyStrip_ne_single_space s h
  unfold format_number_with_decimals
  dsimp only
  rw [if_neg hcond]

lemma format_of_hasCmp (s d : String) (h : hasCmp s = true) :
    format_number_with_decimals s d = .ok (pyStrip s) := by
  obtain ⟨hcs, hne⟩ := hasCmp_strip h
  rw [format_nonblank s d hne, if_pos hcs]

lemma strip_ne_of_parses {s : String} {f : PyFloat}
    (hf : pyFloat (pyStrip s) = some f) : pyStrip s ≠ "" := by
  intro h
  rw [h, pyFloat_empty] at hf
  cases hf

/-! ### Claim theorems about the formatter -/

/-- C5 (code divergence): `format_value("inf", "default")` reaches
`int(float('inf'))`, which raises `OverflowError`; `OverflowError` is not in
the `except (ValueError, TypeError)` clause, so the exception escapes the
function — contradicting the contract that no exception ever propagates. -/
theorem c5_overflow_escape :
    format_number_with_decimals "inf" "default" = .error "OverflowError" := by decide

/-- C6 (counterexample): a comparison string carrying surrounding whitespace
is not returned unchanged — the code strips it first, so
`format_value(" >10.0", "2")` returns `">10.0"`, not the input. -/
theorem c6_cex :
    format_number_with_decimals " >10.0" "2" = .ok ">10.0" ∧
    (">10.0" : String) ≠ " >10.0" := by
  exact ⟨by decide, by decide⟩

/-- C6 (amended): for every input containing `>` or `<` and every decimals
setting, the formatter returns the whitespace-stripped input unchanged —
comparison strings are never numerically reformatted. -/
theorem c6_comparison_passthrough (s d : String) (h : hasCmp s = true) :
    format_number_with_decimals s d = .ok (pyStrip s) :=
  format_of_hasCmp s d h

/-- C6 (amended, witness): the spec's example `format_value(">10.0", "2")`
returns `">10.0"` untouched. -/
theorem c6_comparison_passthrough_witness :
    format_number_with_decimals ">10.0" "2" = .ok (pyStrip ">10.0") ∧
    pyStrip ">10.0" = ">10.0" :=
  ⟨c6_comparison_passthrough ">10.0" "2" (by decide), by decide⟩

/-- C7 (counterexample): in default mode a non-whole numeric input padded with
whitespace is not returned unmodified: `format_value(" 10.5", "default")`
returns the stripped `"10.5"`, not the original string. -/
theorem c7_cex :
    format_number_with_decimals " 10.5" "default" = .ok "10.5" ∧
    ("10.5" : String) ≠ " 10.5" := by
  exact ⟨by decide, by decide⟩

/-- C7 (amended): for every input whose stripped form parses as a finite
number, default mode returns the integer representation (no trailing `.0`)
when the value is a whole number, and otherwise returns the stripped original
string — it never rounds. -/
theorem c7_default_mode (s : String) (m e : ℤ)
    (hc : hasCmp (pyStrip s) = false)
    (hf : pyFloat (pyStrip s) = some (.num m e)) :
    ((∃ k : ℤ, decVal m e = (k : ℚ)) →
      format_number_with_decimals s "default" = .ok (toString (decToInt m e)) ∧
      decVal m e = ((decToInt m e : ℤ) : ℚ)) ∧
    ((∀ k : ℤ, decVal m e ≠ (k : ℚ)) →
      format_number_with_decimals s "default" = .ok (pyStrip s)) := by
  rw [format_nonblank s "default" (strip_ne_of_parses hf), if_neg (by rw [hc]; decide), hf]
  constructor
  · intro hk
    have hi : decIsInt m e = true := (decIsInt_iff m e).2 hk
    exact ⟨by simp [hi], decToInt_val m e hi⟩
  · intro hk
    have hi : decIsInt m e = false := by
      rcases Bool.eq_false_or_eq_true (decIsInt m e) with h | h
      on_goal 2 => exact h
      obtain ⟨k, hkk⟩ := (decIsInt_iff m e).1 h
      exact absurd hkk (hk k)
    simp [hi]

/-- C7 (amended, witness): `format_value("10.0", "default")` returns `"10"`,
and `format_value("10.5", "default")` returns `"10.5"`. -/
theorem c7_default_mode_witness :
    format_number_with_decimals "10.0" "default" = .ok (toString (decToInt 100 (-1))) ∧
    toString (decToInt 100 (-1)) = "10" ∧
    format_number_with_decimals "10.5" "default" = .ok (pyStrip "10.5") ∧
    pyStrip "10.5" = "10.5" := by
  refine ⟨((c7_default_mode "10.0" 100 (-1) (by decide) (by decide)).1
      ⟨10, by norm_num [decVal]⟩).1,
    by decide,
    (c7_default_mode "10.5" 105 (-1) (by decide) (by decide)).2 ?_, by decide⟩
  intro k hkk
  have h1 : decVal 105 (-1) = 21 / 2 := by norm_num [decVal]
  rw [h1] at hkk
  have h2 : (2 : ℚ) * k = 21 := by
    field_simp at hkk
    linarith
  have : (2 * k : ℤ) = 21 := by exact_mod_cast h2
  omega

/-- C9: the formatter strips leading and trailing whitespace before any other
check: every whitespace-only input (including `""`) yields exactly `" "`, and
on each fall-through path — comparison strings, unparseable numerics,
unparseable decimals settings, and non-whole default mode — the result is the
stripped input rather than the original. -/
theorem c9_strip_first :
    (∀ s d : String, s.data.all isPySpace = true →
      format_number_with_decimals s d = .ok " ") ∧
    (∀ s d : String, hasCmp s = true →
      format_number_with_decimals s d = .ok (pyStrip s)) ∧
    (∀ s d : String, pyStrip s ≠ "" → pyFloat (pyStrip s) = none →
      format_number_with_decimals s d = .ok (pyStrip s)) ∧
    (∀ s d : String, ∀ f : PyFloat, pyFloat (pyStrip s) = some f →
      d ≠ "default" → pyInt d = none →
      format_number_with_decimals s d = .ok (pyStrip s)) ∧
    (∀ s : String, ∀ m e : ℤ, hasCmp (pyStrip s) = false →
      pyFloat (pyStrip s) = some (.num m e) → decIsInt m e = false →
      format_number_with_decimals s "default" = .ok (pyStrip s)) := by
  refine ⟨?_, ?_, ?_, ?_, ?_⟩
  · intro s d h
    unfold format_number_with_decimals
    dsimp only
    rw [if_pos (Or.inl (pyStrip_of_all_space h))]
  · exact fun s d h => format_of_hasCmp s d h
  · intro s d hne hn
    rw [format_nonblank s d hne]
    by_cases hc : hasCmp (pyStrip s)
    · rw [if_pos hc]
    · rw [if_neg hc, hn]
  · intro s d f hf hdd hdn
    rw [format_nonblank s d (strip_ne_of_parses hf)]
    by_cases hc : hasCmp (pyStrip s)
    · rw [if_pos hc]
    · rw [if_neg hc, hf]
      dsimp only
      rw [if_neg hdd, hdn]
  · intro s m e hc hf hni
    rw [format_nonblank s "default" (strip_ne_of_parses hf), if_neg (by rw [hc]; decide), hf]
    simp [hni]

/-- C9 (witness): three spaces format to exactly one space, and a padded
comparison string comes back stripped. -/
theorem c9_strip_first_witness :
    format_number_with_decimals "   " "default" = .ok " " ∧
    format_number_with_decimals " >1 " "2" = .ok (pyStrip " >1 ") ∧
    pyStrip " >1 " = ">1" := by
  exact ⟨c9_strip_first.1 "   " "default" (by decide),
    c9_strip_first.2.1 " >1 " "2" (by decide), by decide⟩

/-- C10: a decimals setting that parses as a negative integer does not raise:
Python rejects the resulting format specifier with a `ValueError`, the inner
`except ValueError` catches it, and the stripped original string is returned
(fail open). -/
theorem c10_negative_setting (s d : String) (f : PyFloat) (k : ℤ)
    (hf : pyFloat (pyStrip s) = some f) (hd : pyInt d = some k) (hk : k < 0) :
    format_number_with_decimals s d = .ok (pyStrip s) := by
  have hdd : d ≠ "default" := by
    intro h
    rw [h] at hd
    rw [show pyInt "default" = none by decide] at hd
    cases hd
  rw [format_nonblank s d (strip_ne_of_parses hf)]
  by_cases hc : hasCmp (pyStrip s)
  · rw [if_pos hc]
  · rw [if_neg hc, hf]
    dsimp only
    rw [if_neg hdd, hd]
    dsimp only
    rw [if_pos hk]

/-- C10 (witness): `format_value("10.5", "-1")` returns `"10.5"`. -/
theorem c10_negative_setting_witness :
    format_number_with_decimals "10.5" "-1" = .ok (pyStrip "10.5") ∧
    pyStrip "10.5" = "10.5" :=
  ⟨c10_negative_setting "10.5" "-1" (.num 105 (-1)) (-1)
    (by decide) (by decide) (by decide), by decide⟩

example : calculate_comment ⟨some "POS", none, some "0.5", some "0.2", none⟩ = "WP (TB1)" := by decide
example : calculate_comment ⟨some "IND", some "9.0", none, none, some "0.1"⟩ = "High Nil" := by decide
example : calculate_comment ⟨some "NEG", none, none, none, none⟩ = "" := by decide
example : calculate_comment ⟨some "IND", some "abc", none, none, none⟩ = "Error" := by decide
example : calculate_comment ⟨some "POS", none, some ">1.2", none, none⟩ = "" := by decide
example : pyFloat "inf" = some (.inf true) := by decide
example : pyFloat "1e-2" = some (.num 1 (-2)) := by decide
example : pyInt " -3 " = some (-3) := by decide
example : format_number_with_decimals "10.0" "default" = .ok "10" := by decide
example : format_number_with_decimals "10.256" "2" = .ok "10.26" := by decide
example : format_number_with_decimals "  " "default" = .ok " " := by decide
example : format_number_with_decimals ">10.0" "2" = .ok ">10.0" := by decide
example : format_number_with_decimals "inf" "default" = .error "OverflowError" := by decide
example : format_number_with_decimals "10.5" "-1" = .ok "10.5" := by decide
example : format_number_with_decimals "10.5" "xx" = .ok "10.5" := by decide
example : format_number_with_decimals "0.125" "2" = .ok "0.12" := by decide
example : format_number_with_decimals "-0.0001" "2" = .ok "-0.00" := by decide
